import Mathlib

/-!
Shallow embedding of the polytrader runtime core, translated from the
Python source:

  * `polytrader/data/models.py`   — `OrderSide`, `OrderStatus`, `OrderType`,
    `Order`, `Trade`, `Position` (timestamps are dropped: no verified
    property depends on them);
  * `polytrader/core/executor.py` — `OrderExecutor` in paper mode
    (`create_order`, `_execute_paper_order`, `_update_balance`,
    `_update_position`, `_create_trade`, `cancel_order`, `equity`,
    `realized_pnl`);
  * `polytrader/strategy/runner.py` — the `order_fill` branch of the
    user-channel `on_order_update` callback;
  * `polytrader/core/websocket.py` — subscription state and the market
    message decoder (`_handle_market_message`,
    `_handle_single_market_message`, `_parse_price_updates`,
    `_parse_single_price_change`, `_parse_legacy_price_update`);
  * `polytrader/data/storage.py`  — `save_position` / `get_positions`.

Python floats are modelled as `Rat`; Python dicts as association lists
with at most one binding per key.  `uuid`-generated identifiers are
supplied as explicit arguments (the engine treats them as opaque).
-/

namespace Polytrader

/-- Model of `OrderSide` from `models.py`. -/
inductive OrderSide where
  | buy
  | sell
deriving DecidableEq, Repr

/-- Model of `OrderStatus` from `models.py`. -/
inductive OrderStatus where
  | pending
  | open
  | filled
  | partiallyFilled
  | cancelled
  | rejected
deriving DecidableEq, Repr

/-- Model of `OrderType` from `models.py`. -/
inductive OrderType where
  | limit
  | market
deriving DecidableEq, Repr

/-- Model of the `Order` dataclass from `models.py` (timestamps omitted). -/
structure Order where
  id : String
  market_id : String
  token_id : String
  side : OrderSide
  order_type : OrderType
  status : OrderStatus
  price : Rat
  size : Rat
  filled_size : Rat := 0
  is_paper : Bool := false
deriving DecidableEq, Repr

/-- Model of the `Trade` dataclass from `models.py` (timestamps omitted). -/
structure Trade where
  id : String
  order_id : String
  market_id : String
  token_id : String
  side : OrderSide
  price : Rat
  size : Rat
  fee : Rat := 0
  is_paper : Bool := false
deriving DecidableEq, Repr

/-- Model of the `Position` dataclass from `models.py` (timestamps omitted). -/
structure Position where
  market_id : String
  token_id : String
  size : Rat := 0
  avg_entry_price : Rat := 0
  realized_pnl : Rat := 0
deriving DecidableEq, Repr

/-- Model of `Position.is_flat` from `models.py`: `size == 0`. -/
def Position.is_flat (p : Position) : Bool := p.size = 0

/-- Paper-mode state of `OrderExecutor` (`executor.py`): `_balance`,
`_orders`, `_positions` (keyed by token id), `_trades`, `_slippage`.
Dicts are association lists with at most one binding per key. -/
structure ExecutorState where
  balance : Rat
  orders : List (String × Order) := []
  positions : List (String × Position) := []
  trades : List Trade := []
  slippage : Rat
deriving DecidableEq, Repr

/-- Python `self._positions.get(token_id)`. -/
def lookupPos (s : ExecutorState) (token_id : String) : Option Position :=
  (s.positions.find? (fun kv => kv.1 = token_id)).map (fun kv => kv.2)

/-- Python `dict.__setitem__`: replace any binding for the key. -/
def posInsert (m : List (String × Position)) (k : String) (p : Position) :
    List (String × Position) :=
  (k, p) :: m.filter (fun kv => kv.1 ≠ k)

/-- Python `del self._positions[token_id]`. -/
def posErase (m : List (String × Position)) (k : String) :
    List (String × Position) :=
  m.filter (fun kv => kv.1 ≠ k)

/-- Python `self._orders[order_id] = order`. -/
def orderInsert (m : List (String × Order)) (k : String) (o : Order) :
    List (String × Order) :=
  (k, o) :: m.filter (fun kv => kv.1 ≠ k)

/-- Model of `OrderExecutor._update_balance`: BUY subtracts `price * size` from the
balance, SELL adds it. -/
def updateBalance (s : ExecutorState) (side : OrderSide) (price size : Rat) :
    ExecutorState :=
  let cost := price * size
  match side with
  | .buy => { s with balance := s.balance - cost }
  | .sell => { s with balance := s.balance + cost }

/-- Model of `OrderExecutor._update_position`: look up (or create) the position for
the token, add on BUY (updating the size-weighted average entry), reduce
on SELL (accruing `(price - avg_entry) * size` of realized P&L while the
previous size was positive), and delete the position when it ends flat. -/
def updatePosition (s : ExecutorState) (token_id : String) (side : OrderSide)
    (price size : Rat) : ExecutorState :=
  let pos := (lookupPos s token_id).getD
    { market_id := "", token_id := token_id }
  let pos :=
    match side with
    | .buy =>
        let total_cost := pos.size * pos.avg_entry_price + size * price
        let newSize := pos.size + size
        if 0 < newSize then
          { pos with size := newSize, avg_entry_price := total_cost / newSize }
        else
          { pos with size := newSize }
    | .sell =>
        let pos :=
          if 0 < pos.size then
            { pos with
              realized_pnl := pos.realized_pnl + (price - pos.avg_entry_price) * size }
          else pos
        { pos with size := pos.size - size }
  { s with positions :=
      if pos.is_flat then posErase s.positions token_id
      else posInsert s.positions token_id pos }

/-- Model of `OrderExecutor._create_trade`: append an immutable trade record. The
`trade_id` (a uuid in the source) is supplied by the caller. -/
def createTrade (s : ExecutorState) (trade_id : String) (o : Order)
    (price size : Rat) : ExecutorState :=
  let trade : Trade :=
    { id := trade_id, order_id := o.id, market_id := o.market_id,
      token_id := o.token_id, side := o.side, price := price, size := size,
      is_paper := o.is_paper }
  { s with trades := s.trades ++ [trade] }

/-- Model of `OrderExecutor._execute_paper_order`: compute the fill price (slippage
applies to MARKET orders only, signed by side), record the order as
immediately FILLED, append the trade, then update balance and position.
The `order_id` / `trade_id` (uuids in the source) are supplied by the
caller. -/
def executePaperOrder (s : ExecutorState) (order_id trade_id : String)
    (market_id token_id : String) (side : OrderSide) (price size : Rat)
    (order_type : OrderType) : Option Order × ExecutorState :=
  let fill_price :=
    match order_type with
    | .market =>
        match side with
        | .buy => price * (1 + s.slippage)
        | .sell => price * (1 - s.slippage)
    | .limit => price
  let order : Order :=
    { id := order_id, market_id := market_id, token_id := token_id,
      side := side, order_type := order_type, status := .filled,
      price := price, size := size, filled_size := size, is_paper := true }
  let s := { s with orders := orderInsert s.orders order_id order }
  let s := createTrade s trade_id order fill_price size
  let s := updateBalance s side fill_price size
  let s := updatePosition s token_id side fill_price size
  (some order, s)

/-- The SELL pre-trade check of `create_order`:
`not pos or pos.size < size` — no position, or one smaller than the order. -/
def insufficientPosition (s : ExecutorState) (token_id : String)
    (size : Rat) : Bool :=
  match lookupPos s token_id with
  | none => true
  | some pos => pos.size < size

/-- Model of `OrderExecutor.create_order` in paper mode: validate size, price,
balance (BUY) and position (SELL) in that order, returning `none` with the
state untouched on any failure, else execute the paper order. -/
def createOrder (s : ExecutorState) (order_id trade_id : String)
    (market_id token_id : String) (side : OrderSide) (price size : Rat)
    (order_type : OrderType) : Option Order × ExecutorState :=
  if size ≤ 0 then (none, s)
  else if price ≤ 0 ∨ 1 ≤ price then (none, s)
  else if side = .buy ∧ s.balance < price * size then (none, s)
  else if side = .sell ∧ insufficientPosition s token_id size then (none, s)
  else executePaperOrder s order_id trade_id market_id token_id side price
    size order_type

/-- Model of `OrderExecutor.cancel_order` in paper mode: succeeds (marking the order
CANCELLED) only while the status is OPEN or PENDING; otherwise returns
`false` and leaves the order unchanged. -/
def cancelOrder (o : Order) : Bool × Order :=
  if o.status = .open ∨ o.status = .pending then
    (true, { o with status := .cancelled })
  else
    (false, o)

/-- Model of `OrderExecutor.equity` (paper mode): balance plus
`Σ pos.size * pos.avg_entry_price` over the held positions. -/
def equity (s : ExecutorState) : Rat :=
  s.balance + (s.positions.map (fun kv => kv.2.size * kv.2.avg_entry_price)).sum

/-- Model of `OrderExecutor.realized_pnl`: `Σ pos.realized_pnl` over the positions
currently in the map. -/
def realizedPnl (s : ExecutorState) : Rat :=
  (s.positions.map (fun kv => kv.2.realized_pnl)).sum

/-- Modelled from the spec (§4.3 Exposure): the *specified* equity,
`balance + Σ(position.size × last_known_price)`, where `last_known_price`
maps each token to its last-known market price.  Used only to compare the
implemented `equity` against the spec's words. -/
def equitySpec (s : ExecutorState) (last_known_price : String → Rat) : Rat :=
  s.balance + (s.positions.map (fun kv => kv.2.size * last_known_price kv.1)).sum

/-! ### User-channel fill events (`strategy/runner.py`, `on_order_update`)

The `order_fill` branch builds a trade of size `float(data.get("size", 0))`
and mutates the matched order:
`order.filled_size += trade.size` and, when `filled_size >= size`, sets the
status to FILLED.  The handler performs no other check. -/

/-- One `order_fill` event applied to an order. -/
def applyFillEvent (o : Order) (fill_size : Rat) : Order :=
  let o2 : Order := { o with filled_size := o.filled_size + fill_size }
  if o2.size ≤ o2.filled_size then { o2 with status := .filled } else o2

/-- The two kinds of in-process mutation an existing order can undergo:
a user-channel `order_fill` (runner) or a `cancel_order` call (executor). -/
inductive OrderEvent where
  | fill (size : Rat)
  | cancel
deriving DecidableEq, Repr

/-- Apply one event to an order. -/
def applyOrderEvent (o : Order) : OrderEvent → Order
  | .fill fs => applyFillEvent o fs
  | .cancel => (cancelOrder o).2

/-- Apply a sequence of events to an order. -/
def applyOrderEvents (o : Order) (es : List OrderEvent) : Order :=
  es.foldl applyOrderEvent o

/-- Guard under which a fill sequence is benign: each fill is non-negative,
fits in the order's remaining size, and does not target a CANCELLED order.
The source code never checks this; it is the hypothesis under which the
spec's order invariant actually holds. -/
def guardedEvents : Order → List OrderEvent → Prop
  | _, [] => True
  | o, .fill fs :: es =>
      (0 ≤ fs ∧ fs ≤ o.size - o.filled_size ∧ o.status ≠ .cancelled) ∧
      guardedEvents (applyFillEvent o fs) es
  | o, .cancel :: es => guardedEvents ((cancelOrder o).2) es

/-- Position of a status along the spec's transition order
PENDING, then OPEN, then the set of PARTIALLY_FILLED, FILLED, CANCELLED and REJECTED. -/
def statusRank : OrderStatus → Nat
  | .pending => 0
  | .open => 1
  | _ => 2

/-- The two statuses the spec calls terminal. -/
def terminalStatus : OrderStatus → Bool
  | .filled => true
  | .cancelled => true
  | _ => false

/-- Status `b` is reachable from `a` without moving backwards: the rank never
decreases and a terminal status never changes. -/
def StatusForward (a b : OrderStatus) : Prop :=
  statusRank a ≤ statusRank b ∧ (terminalStatus a = true → b = a)

/-! ### Market-channel subscriptions (`core/websocket.py`)

`_market_subscriptions` is a Python `set` of token ids, modelled as a
duplicate-free-by-construction list.  `subscribe_market` unions new ids in
and (when the socket is open) re-sends the subscription;
`unsubscribe_market` removes ids; `_connect_market` — run on every connect
and reconnect of the `run` loop — sends the subscription message whenever
the set is non-empty.  `_send_market_subscription` sends
`assets_ids = list(self._market_subscriptions)` with `type = "MARKET"` and
`initial_dump = True`.  Socket liveness is abstracted away (the model
corresponds to the moment the socket is open). -/

/-- Python `set.update`: add each id not already present. -/
def subsUnion (subs ids : List String) : List String :=
  ids.foldl (fun acc i => if i ∈ acc then acc else acc ++ [i]) subs

/-- Python `set.difference_update`. -/
def subsDiff (subs ids : List String) : List String :=
  subs.filter (fun t => t ∉ ids)

/-- The market subscription frame built by `_send_market_subscription`
(the optional `auth` field is omitted: no claim depends on it). -/
structure MarketSubMessage where
  assets_ids : List String
  type : String
  initial_dump : Bool
deriving DecidableEq, Repr

/-- Model of `_send_market_subscription`: no frame when the subscription set is
empty, else the full current set. -/
def sendMarketSubscription (subs : List String) : Option MarketSubMessage :=
  if subs.isEmpty then none
  else some { assets_ids := subs, type := "MARKET", initial_dump := true }

/-- Externally visible subscription-state transitions: `subscribe_market`,
`unsubscribe_market`, and a (re)connect of the market socket. -/
inductive WsEvent where
  | subscribe (ids : List String)
  | unsubscribe (ids : List String)
  | reconnect
deriving DecidableEq, Repr

/-- How each event changes the subscription set (reconnects preserve it). -/
def wsStepSubs (subs : List String) : WsEvent → List String
  | .subscribe ids => subsUnion subs ids
  | .unsubscribe ids => subsDiff subs ids
  | .reconnect => subs

/-- The subscription frame each event causes to be sent, if any:
`subscribe_market` re-sends over an open socket, and `_connect_market`
sends on every (re)connect; both go through `_send_market_subscription`. -/
def wsStepFrame (subs : List String) : WsEvent → Option MarketSubMessage
  | .subscribe ids => sendMarketSubscription (subsUnion subs ids)
  | .unsubscribe _ => none
  | .reconnect => sendMarketSubscription subs

/-- Subscription set after a sequence of events. -/
def wsRunSubs (subs : List String) (es : List WsEvent) : List String :=
  es.foldl wsStepSubs subs

/-! ### The market message decoder (`core/websocket.py`)

JSON values are modelled by `JValue`; Python floats by `Rat`.
`float(x)` is modelled by `asFloat` on plain decimal literals (exponent,
infinity/nan and surrounding-whitespace forms are not modelled — no claim
exercises them; a non-numeric input makes `float` raise, modelled as
`none`, which the enclosing `try` converts to a dropped update). -/

/-- A JSON value, as produced by `json.loads`. -/
inductive JValue where
  | null
  | bool (b : Bool)
  | num (q : Rat)
  | str (s : String)
  | arr (items : List JValue)
  | obj (fields : List (String × JValue))

/-- Python `dict.get` (and key membership): first binding for the key. -/
def jLookup (fields : List (String × JValue)) (key : String) : Option JValue :=
  (fields.find? (fun kv => kv.1 = key)).map (fun kv => kv.2)

/-- Numeric value of an all-digit character list. -/
def digitsToNat (cs : List Char) : Nat :=
  cs.foldl (fun acc c => 10 * acc + (c.toNat - 48)) 0

/-- Unsigned decimal literal: `"65"`, `"0.65"`, `".5"`, `"5."`. -/
def parseUnsignedRat (s : String) : Option Rat :=
  match s.splitOn "." with
  | [ip] =>
      if ip.toList ≠ [] ∧ ip.toList.all Char.isDigit then
        some (digitsToNat ip.toList : Nat)
      else none
  | [ip, fp] =>
      if (ip.toList ++ fp.toList) ≠ [] ∧
          (ip.toList ++ fp.toList).all Char.isDigit then
        some ((digitsToNat (ip.toList ++ fp.toList) : Rat) / (10 : Rat) ^ fp.length)
      else none
  | _ => none

/-- Signed decimal literal, Python `float(str)` on plain decimals. -/
def parseFloatRat (s : String) : Option Rat :=
  match s.toList with
  | '-' :: rest => (parseUnsignedRat (String.mk rest)).map (fun q => -q)
  | '+' :: rest => parseUnsignedRat (String.mk rest)
  | _ => parseUnsignedRat s

/-- Python `float(x)` on a JSON value: numbers pass through, booleans map
to 0/1, strings are parsed, everything else raises (`none`). -/
def asFloat : JValue → Option Rat
  | .num q => some q
  | .bool b => some (if b then 1 else 0)
  | .str s => parseFloatRat s
  | _ => none

/-- Model of the `PriceUpdate` dataclass from `models.py` as constructed by the decoder
(timestamp omitted; `market_id` / `token_id` keep the raw looked-up JSON
value exactly as the Python code stores it). -/
structure PriceUpdate where
  market_id : JValue
  token_id : JValue
  price : Rat
  best_bid : Option Rat := none
  best_ask : Option Rat := none
  bid_size : Option Rat := none
  ask_size : Option Rat := none

/-- Python `float(d[key]) if key in d else None`: absent keys yield `none`
(no field), an unparseable present value raises (outer `none`). -/
def parseOptPrice (fields : List (String × JValue)) (key : String) :
    Option (Option Rat) :=
  match jLookup fields key with
  | none => some none
  | some v => (asFloat v).map some

/-- Model of `_parse_single_price_change`: one element of a `price_changes` array;
`asset_id` from the element, market id passed down from the frame; any
raised exception yields `None`. -/
def parseSinglePriceChange (pc : JValue) (market_id : JValue) :
    Option PriceUpdate :=
  match pc with
  | .obj fields =>
      match asFloat ((jLookup fields "price").getD (.num 0)),
            parseOptPrice fields "best_bid",
            parseOptPrice fields "best_ask" with
      | some price, some bb, some ba =>
          some { market_id := market_id,
                 token_id := (jLookup fields "asset_id").getD (.str ""),
                 price := price, best_bid := bb, best_ask := ba }
      | _, _, _ => none
  | _ => none

/-- Model of `_parse_legacy_price_update`: single update with `asset_id`, `bid`,
`ask` at top level. -/
def parseLegacyPriceUpdate (fields : List (String × JValue)) :
    Option PriceUpdate :=
  match asFloat ((jLookup fields "price").getD (.num 0)),
        parseOptPrice fields "bid",
        parseOptPrice fields "ask" with
  | some price, some bb, some ba =>
      some { market_id := (jLookup fields "market").getD (.str ""),
             token_id := (jLookup fields "asset_id").getD (.str ""),
             price := price, best_bid := bb, best_ask := ba }
  | _, _, _ => none

/-- Model of `_parse_price_updates`: with a `price_changes` key, parse each array
element against the frame's `market` id, dropping elements whose parse
raised; a non-array `price_changes` value produces no updates (iterating
it either yields values no element-parse accepts or raises into the outer
`except`, which returns the updates collected so far — the empty list);
without the key, fall back to the legacy single-update format. -/
def parsePriceUpdates (fields : List (String × JValue)) : List PriceUpdate :=
  match jLookup fields "price_changes" with
  | some (.arr pcs) =>
      let m := (jLookup fields "market").getD (.str "")
      pcs.filterMap (fun pc => parseSinglePriceChange pc m)
  | some _ => []
  | none => (parseLegacyPriceUpdate fields).toList

/-- The events `_handle_single_market_message` dispatches to callbacks. -/
inductive MarketEvent where
  | price (u : PriceUpdate)
  | book (data : JValue)
  | trade (data : JValue)

/-- Python `data.get("event_type", "")` when that value is a string (a non-string
value compares unequal to every event-type name). -/
def eventTypeStr (fields : List (String × JValue)) : Option String :=
  match (jLookup fields "event_type").getD (.str "") with
  | .str s => some s
  | _ => none

/-- Model of `_handle_single_market_message`: the `if` / `elif` chain on
`event_type`; unknown values produce no events. -/
def handleSingleMarketMessage (fields : List (String × JValue)) :
    List MarketEvent :=
  let et := eventTypeStr fields
  if et = some "price_change" then (parsePriceUpdates fields).map .price
  else if et = some "book" then [.book (.obj fields)]
  else if et = some "trade" then [.trade (.obj fields)]
  else []

/-- Whether a JSON value is a Python dict. -/
def isObj : JValue → Bool
  | .obj _ => true
  | _ => false

/-- Model of `_handle_market_message`: a list frame is flattened with non-dict
elements silently dropped; a dict frame is handled directly; any other
frame produces nothing. -/
def handleMarketMessage (data : JValue) : List MarketEvent :=
  match data with
  | .arr items =>
      items.flatMap (fun it =>
        match it with
        | .obj fields => handleSingleMarketMessage fields
        | _ => [])
  | .obj fields => handleSingleMarketMessage fields
  | _ => []

/-- A `price_changes` element on which `_parse_single_price_change`
cannot raise: a dict whose `price` (defaulted to 0) and, when present,
`best_bid` / `best_ask` survive `float()`. -/
def wellFormedPC : JValue → Bool
  | .obj fields =>
      (asFloat ((jLookup fields "price").getD (.num 0))).isSome &&
      (parseOptPrice fields "best_bid").isSome &&
      (parseOptPrice fields "best_ask").isSome
  | _ => false

/-! ### The storage port (`data/storage.py`)

The `positions` table has primary key `token_id` (a column of the row
itself).  `save_position` is an SQL `INSERT OR REPLACE` (afterwards there
is exactly one row for that primary key); `get_positions` selects
`WHERE size != 0`. -/

/-- The positions table: a set of rows with primary key `token_id`. -/
def PositionsTable : Type := List Position

/-- Model of `Storage.save_position`: INSERT OR REPLACE keyed by `token_id`. -/
def savePosition (db : PositionsTable) (p : Position) : PositionsTable :=
  p :: db.filter (fun row => row.token_id ≠ p.token_id)

/-- Model of `Storage.get_positions`: `SELECT * FROM positions WHERE size != 0`. -/
def getPositions (db : PositionsTable) : List Position :=
  db.filter (fun row => row.size ≠ 0)

/-! ### Concrete scenario states (spec §8, paper mode,
`starting_balance = 10000`, `slippage = 0`) -/

/-- Fresh paper engine: starting balance 10000, slippage 0. -/
def scenarioStart : ExecutorState := { balance := 10000, slippage := 0 }

/-- Scenario S1, first leg: BUY token T1 at price 0.40, size 100. -/
def scenarioBuy : Option Order × ExecutorState :=
  createOrder scenarioStart "o1" "t1" "M1" "T1" .buy (2/5) 100 .limit

/-- Scenario S1, second leg: SELL token T1 at price 0.50, size 100. -/
def scenarioSell : Option Order × ExecutorState :=
  createOrder scenarioBuy.2 "o2" "t2" "M1" "T1" .sell (1/2) 100 .limit

/-- An OPEN order, size 100 and nothing filled, as the user-channel fill
handler may hold it. -/
def openOrderC3 : Order :=
  { id := "ord_open", market_id := "M1", token_id := "T1", side := .buy,
    order_type := .limit, status := .open, price := 1/2, size := 100,
    filled_size := 0, is_paper := false }

/-- A CANCELLED order with nothing filled. -/
def cancelledOrderC3 : Order :=
  { openOrderC3 with id := "ord_cxl", status := .cancelled }

/-- A PENDING order used to exercise the guarded fill sequence. -/
def pendingOrderC3 : Order :=
  { openOrderC3 with id := "ord_pend", status := .pending }

/-- A flat (size-0) position carrying non-trivial bookkeeping columns. -/
def flatPosC9 : Position :=
  { market_id := "M1", token_id := "T1", size := 0, avg_entry_price := 2/5,
    realized_pnl := 10 }

/-- Two well-formed per-token `price_changes` elements (spec §8 S3, with
numeric prices). -/
def pcElemsC5 : List JValue :=
  [.obj [("asset_id", .str "TY"), ("price", .num (13/20)),
         ("best_bid", .num (16/25)), ("best_ask", .num (33/50))],
   .obj [("asset_id", .str "TN"), ("price", .num (7/20))]]

/-- A well-formed batched `price_change` frame carrying `pcElemsC5`. -/
def frameFieldsC5 : List (String × JValue) :=
  [("event_type", .str "price_change"), ("market", .str "M1"),
   ("price_changes", .arr pcElemsC5)]

/-- The order record produced by the S1 BUY leg. -/
def buyOrderLit : Order :=
  { id := "o1", market_id := "M1", token_id := "T1", side := .buy,
    order_type := .limit, status := .filled, price := 2/5, size := 100,
    filled_size := 100, is_paper := true }

/-- A subscription trace: subscribe to TY and TN, then a reconnect. -/
def wsEventsC7 : List WsEvent := [.subscribe ["TY", "TN"], .reconnect]

/-- A market frame with an unknown `event_type`. -/
def unknownFieldsC8 : List (String × JValue) :=
  [("event_type", .str "last_trade_price"), ("asset_id", .str "TY")]

/-! ## Helper lemmas -/

/-- In an association list with duplicate-free keys, `find?` on the key of
a member returns exactly that member. -/
theorem assoc_find_of_nodup {α β : Type} [DecidableEq α] :
    ∀ (l : List (α × β)) (kv : α × β), (l.map Prod.fst).Nodup → kv ∈ l →
      l.find? (fun x => x.1 = kv.1) = some kv := by
  intro l
  induction l with
  | nil => intro kv _ h; cases h
  | cons hd tl ih =>
      intro kv hnd hmem
      rcases List.mem_cons.mp hmem with rfl | hmem2
      · exact List.find?_cons_of_pos _ (by simp)
      · have hne : hd.1 ≠ kv.1 := by
          intro hEq
          have h1 : kv.1 ∈ tl.map Prod.fst := List.mem_map_of_mem _ hmem2
          have h2 : hd.1 ∉ tl.map Prod.fst := (List.nodup_cons.mp hnd).1
          exact h2 (hEq ▸ h1)
        rw [List.find?_cons_of_neg _ (by simp [hne])]
        exact ih kv (List.nodup_cons.mp hnd).2 hmem2

/-- `lookupPos` of a stored binding, under duplicate-free keys. -/
theorem lookupPos_of_mem {s : ExecutorState} {kv : String × Position}
    (hnd : (s.positions.map Prod.fst).Nodup) (hmem : kv ∈ s.positions) :
    lookupPos s kv.1 = some kv.2 := by
  unfold lookupPos
  rw [assoc_find_of_nodup s.positions kv hnd hmem]
  rfl

/-! ## Claim theorems -/

/-- **C1** (counterexample).  After the full S1 buy/sell cycle the engine's
reported total realized P&L is not the claimed +10: the profitable T1
position was deleted when it went flat, and `realized_pnl` sums only over
positions still in the map. -/
theorem c1_realized_pnl_not_ten : realizedPnl scenarioSell.2 ≠ 10 := by
  norm_num +decide [scenarioSell, scenarioBuy, scenarioStart, createOrder,
    executePaperOrder, insufficientPosition, lookupPos, updateBalance,
    updatePosition, createTrade, posInsert, posErase, orderInsert,
    Position.is_flat, realizedPnl]

/-- **C1** (amended).  In paper mode with starting balance 10000 and
slippage 0: BUY T1 0.40×100 is accepted FILLED, balance 9960, position T1
of size 100 at average entry 0.40; SELL T1 0.50×100 is FILLED, balance
10010, the T1 position is removed — and the engine then reports a total
realized P&L of 0, not +10, because the deletion of the flat position
discards its accumulated realized P&L. -/
theorem c1_buy_sell_cycle :
    scenarioBuy.1 = some
      { id := "o1", market_id := "M1", token_id := "T1", side := .buy,
        order_type := .limit, status := .filled, price := 2/5, size := 100,
        filled_size := 100, is_paper := true } ∧
    scenarioBuy.2.balance = 9960 ∧
    lookupPos scenarioBuy.2 "T1" = some
      { market_id := "", token_id := "T1", size := 100,
        avg_entry_price := 2/5, realized_pnl := 0 } ∧
    (scenarioSell.1.map Order.status) = some .filled ∧
    scenarioSell.2.balance = 10010 ∧
    lookupPos scenarioSell.2 "T1" = none ∧
    realizedPnl scenarioSell.2 = 0 := by
  norm_num +decide [scenarioSell, scenarioBuy, scenarioStart, createOrder,
    executePaperOrder, insufficientPosition, lookupPos, updateBalance,
    updatePosition, createTrade, posInsert, posErase, orderInsert,
    Position.is_flat, realizedPnl]

/-- **C2** (counterexample).  The engine's `equity` does not price
positions at the token's last-known market price: after buying 100 T1 at
0.40, with a last-known price of 0.50 the spec formula gives 10010 while
the implementation reports 10000 (it prices the position at its average
entry). -/
theorem c2_equity_not_last_price :
    equity scenarioBuy.2 ≠ equitySpec scenarioBuy.2 (fun _ => 1/2) := by
  norm_num +decide [scenarioBuy, scenarioStart, createOrder,
    executePaperOrder, insufficientPosition, lookupPos, updateBalance,
    updatePosition, createTrade, posInsert, posErase, orderInsert,
    Position.is_flat, equity, equitySpec]

/-- **C2** (amended).  The equity reported by the engine is computed on
demand from the position map, but it prices each held position at its own
average entry price (its cost basis), not at the token's last-known
market price: `equity` agrees with the spec formula exactly when the
price function is the average-entry lookup. -/
theorem c2_equity_prices_at_avg_entry (s : ExecutorState)
    (hnd : (s.positions.map Prod.fst).Nodup) :
    equity s = equitySpec s
      (fun tok => ((lookupPos s tok).getD
        { market_id := "", token_id := tok }).avg_entry_price) := by
  unfold equity equitySpec
  have h : ∀ kv ∈ s.positions,
      kv.2.size * ((lookupPos s kv.1).getD
        { market_id := "", token_id := kv.1 }).avg_entry_price
      = kv.2.size * kv.2.avg_entry_price := by
    intro kv hkv
    rw [lookupPos_of_mem hnd hkv]
    rfl
  rw [List.map_congr_left h]

/-- **C2** witness: the amended theorem applied to the post-buy state. -/
theorem c2_equity_prices_at_avg_entry_witness :
    (scenarioBuy.2.positions.map Prod.fst).Nodup ∧
    equity scenarioBuy.2 = equitySpec scenarioBuy.2
      (fun tok => ((lookupPos scenarioBuy.2 tok).getD
        { market_id := "", token_id := tok }).avg_entry_price) := by
  have hnd : (scenarioBuy.2.positions.map Prod.fst).Nodup := by
    norm_num +decide [scenarioBuy, scenarioStart, createOrder,
      executePaperOrder, insufficientPosition, lookupPos, updateBalance,
      updatePosition, createTrade, posInsert, posErase, orderInsert,
      Position.is_flat]
  exact ⟨hnd, c2_equity_prices_at_avg_entry scenarioBuy.2 hnd⟩

/-- **C4** (counterexample).  The three pre-trade failures — non-positive
size, BUY at price 0, and a SELL exceeding the held position — all come
back as the one untyped rejection `none` with the state unchanged: the
engine returns no `ErrInvalidSize` / `ErrInvalidPrice` /
`ErrInsufficientPosition` distinction (the Python method returns `None`
and only logs). -/
theorem c4_rejections_untyped :
    createOrder scenarioBuy.2 "x1" "y1" "M1" "T2" .buy (1/2) (-5) .limit
      = (none, scenarioBuy.2) ∧
    createOrder scenarioBuy.2 "x2" "y2" "M1" "T2" .buy 0 100 .limit
      = (none, scenarioBuy.2) ∧
    createOrder scenarioBuy.2 "x3" "y3" "M1" "T1" .sell (1/2) 150 .limit
      = (none, scenarioBuy.2) ∧
    (createOrder scenarioBuy.2 "x1" "y1" "M1" "T2" .buy (1/2) (-5) .limit).1
      = (createOrder scenarioBuy.2 "x2" "y2" "M1" "T2" .buy 0 100 .limit).1 := by
  norm_num +decide [scenarioBuy, scenarioStart, createOrder,
    executePaperOrder, insufficientPosition, lookupPos, updateBalance,
    updatePosition, createTrade, posInsert, posErase, orderInsert,
    Position.is_flat]

/-- **C4** (amended).  Pre-trade checks are applied in order and each
failure returns synchronously with the untyped rejection `none` and no
state change: a non-positive size is rejected; a price outside (0,1) — in
particular a BUY at 0 or 1 — is rejected; a SELL whose size exceeds the
existing position is rejected; in every case balance, orders, trades and
positions are all left exactly as they were. -/
theorem c4_pretrade_checks (s : ExecutorState) (oid tid m tok : String)
    (side : OrderSide) (price size : Rat) (ot : OrderType) :
    (size ≤ 0 → createOrder s oid tid m tok side price size ot = (none, s)) ∧
    ((price ≤ 0 ∨ 1 ≤ price) →
      createOrder s oid tid m tok side price size ot = (none, s)) ∧
    (∀ p, lookupPos s tok = some p → p.size < size →
      createOrder s oid tid m tok .sell price size ot = (none, s)) := by
  refine ⟨?_, ?_, ?_⟩
  · intro h
    simp [createOrder, h]
  · intro h
    by_cases hs : size ≤ 0
    · simp [createOrder, hs]
    · simp [createOrder, hs, h]
  · intro p hp hlt
    by_cases hs : size ≤ 0
    · simp [createOrder, hs]
    by_cases hpr : price ≤ 0 ∨ 1 ≤ price
    · simp [createOrder, hs, hpr]
    have hip : insufficientPosition s tok size = true := by
      simp [insufficientPosition, hp, hlt]
    simp [createOrder, hs, hpr, hip]

/-- **C4** witness: the amended theorem applied to the post-buy state with
a negative size, a BUY at price 0, and a SELL of 150 against the held 100. -/
theorem c4_pretrade_checks_witness :
    ((-5 : Rat) ≤ 0 ∧
      createOrder scenarioBuy.2 "x1" "y1" "M1" "T2" .buy (1/2) (-5) .limit
        = (none, scenarioBuy.2)) ∧
    (((0 : Rat) ≤ 0 ∨ (1 : Rat) ≤ 0) ∧
      createOrder scenarioBuy.2 "x2" "y2" "M1" "T2" .buy 0 100 .limit
        = (none, scenarioBuy.2)) ∧
    (lookupPos scenarioBuy.2 "T1" = some
      { market_id := "", token_id := "T1", size := 100,
        avg_entry_price := 2/5, realized_pnl := 0 } ∧
     ({ market_id := "", token_id := "T1", size := 100,
        avg_entry_price := 2/5, realized_pnl := 0 } : Position).size < 150 ∧
      createOrder scenarioBuy.2 "x3" "y3" "M1" "T1" .sell (1/2) 150 .limit
        = (none, scenarioBuy.2)) := by
  have hlook : lookupPos scenarioBuy.2 "T1" = some
      { market_id := "", token_id := "T1", size := 100,
        avg_entry_price := 2/5, realized_pnl := 0 } := by
    norm_num +decide [scenarioBuy, scenarioStart, createOrder,
      executePaperOrder, insufficientPosition, lookupPos, updateBalance,
      updatePosition, createTrade, posInsert, posErase, orderInsert,
      Position.is_flat]
  refine ⟨⟨by norm_num, ?_⟩, ⟨Or.inl le_rfl, ?_⟩, ⟨hlook, by norm_num, ?_⟩⟩
  · exact (c4_pretrade_checks scenarioBuy.2 "x1" "y1" "M1" "T2" .buy (1/2)
      (-5) .limit).1 (by norm_num)
  · exact (c4_pretrade_checks scenarioBuy.2 "x2" "y2" "M1" "T2" .buy 0 100
      .limit).2.1 (Or.inl le_rfl)
  · exact (c4_pretrade_checks scenarioBuy.2 "x3" "y3" "M1" "T1" .sell (1/2)
      150 .limit).2.2 _ hlook (by norm_num)

/-- Every status has rank at most 2. -/
theorem statusRank_le_two (a : OrderStatus) : statusRank a ≤ 2 := by
  cases a <;> simp [statusRank]

/-- `StatusForward` is reflexive. -/
theorem statusForward_refl (a : OrderStatus) : StatusForward a a :=
  ⟨le_refl _, fun _ => rfl⟩

/-- `StatusForward` is transitive. -/
theorem statusForward_trans {a b c : OrderStatus}
    (h1 : StatusForward a b) (h2 : StatusForward b c) : StatusForward a c := by
  refine ⟨le_trans h1.1 h2.1, fun ht => ?_⟩
  have hb : b = a := h1.2 ht
  rw [hb] at h2
  exact h2.2 ht

/-- A guarded `order_fill` keeps `filled_size ≤ size`, moves the status
only forward, and leaves the size unchanged. -/
theorem applyFillEvent_step {o : Order} {fs : Rat}
    (hsz : o.filled_size ≤ o.size) (h0 : 0 ≤ fs)
    (hrem : fs ≤ o.size - o.filled_size) (hc : o.status ≠ .cancelled) :
    (applyFillEvent o fs).filled_size ≤ (applyFillEvent o fs).size ∧
    StatusForward o.status (applyFillEvent o fs).status ∧
    (applyFillEvent o fs).size = o.size := by
  have hle : o.filled_size + fs ≤ o.size := by linarith
  unfold applyFillEvent
  dsimp only
  split
  · refine ⟨by simpa using hle, ⟨?_, ?_⟩, rfl⟩
    · show statusRank o.status ≤ statusRank .filled
      cases o.status <;> simp [statusRank]
    · intro ht
      cases ho : o.status <;> rw [ho] at ht hc <;>
        simp [terminalStatus] at ht ⊢
      exact absurd rfl hc
  · exact ⟨by simpa using hle, statusForward_refl _, rfl⟩

/-- `cancel_order` keeps `filled_size ≤ size`, moves the status only
forward, and leaves the size unchanged. -/
theorem cancelOrder_step (o : Order) (hsz : o.filled_size ≤ o.size) :
    ((cancelOrder o).2).filled_size ≤ ((cancelOrder o).2).size ∧
    StatusForward o.status ((cancelOrder o).2).status ∧
    ((cancelOrder o).2).size = o.size := by
  unfold cancelOrder
  split
  case isTrue h =>
    refine ⟨by simpa using hsz, ⟨?_, ?_⟩, rfl⟩
    · rcases h with h | h <;> rw [h] <;> simp [statusRank]
    · intro ht
      rcases h with h | h <;> rw [h] at ht <;> simp [terminalStatus] at ht
  case isFalse h => exact ⟨hsz, statusForward_refl _, rfl⟩

/-- **C3** (counterexample).  The user-channel fill handler caps nothing:
a fill of 150 against an OPEN order of size 100 drives `filled_size`
above `size`, and a full-size fill delivered for a CANCELLED order flips
its status to FILLED (CANCELLED is not terminal in the code). -/
theorem c3_fill_invariant_violated :
    (applyFillEvent openOrderC3 150).size
      < (applyFillEvent openOrderC3 150).filled_size ∧
    (applyFillEvent cancelledOrderC3 100).status = .filled := by
  norm_num +decide [applyFillEvent, openOrderC3, cancelledOrderC3]

/-- **C3** (amended).  Provided every `order_fill` event carries a
non-negative size no larger than the order's remaining size and never
targets a CANCELLED order, any sequence of fill and cancel events
preserves `filled_size ≤ size` and only moves the status forward along
PENDING → OPEN → terminal, with FILLED and CANCELLED never abandoned; the
handler itself does not enforce this guard. -/
theorem c3_order_invariant_guarded :
    ∀ (es : List OrderEvent) (o : Order), o.filled_size ≤ o.size →
    guardedEvents o es →
    (applyOrderEvents o es).filled_size ≤ (applyOrderEvents o es).size ∧
    StatusForward o.status (applyOrderEvents o es).status := by
  intro es
  induction es with
  | nil => exact fun o hsz _ => ⟨hsz, statusForward_refl _⟩
  | cons e rest ih =>
      intro o hsz hg
      cases e with
      | fill fs =>
          obtain ⟨⟨h0, hrem, hc⟩, hg2⟩ := hg
          obtain ⟨hsz2, hfwd, -⟩ := applyFillEvent_step hsz h0 hrem hc
          have hrest := ih (applyFillEvent o fs) hsz2 hg2
          exact ⟨hrest.1, statusForward_trans hfwd hrest.2⟩
      | cancel =>
          have hg2 : guardedEvents ((cancelOrder o).2) rest := hg
          obtain ⟨hsz2, hfwd, -⟩ := cancelOrder_step o hsz
          have hrest := ih ((cancelOrder o).2) hsz2 hg2
          exact ⟨hrest.1, statusForward_trans hfwd hrest.2⟩

/-- **C3** witness: a PENDING order of size 100 receiving fills of 60 and
40 and then a cancel attempt. -/
theorem c3_order_invariant_guarded_witness :
    pendingOrderC3.filled_size ≤ pendingOrderC3.size ∧
    guardedEvents pendingOrderC3 [.fill 60, .fill 40, .cancel] ∧
    ((applyOrderEvents pendingOrderC3 [.fill 60, .fill 40, .cancel]).filled_size
        ≤ (applyOrderEvents pendingOrderC3 [.fill 60, .fill 40, .cancel]).size ∧
      StatusForward pendingOrderC3.status
        (applyOrderEvents pendingOrderC3 [.fill 60, .fill 40, .cancel]).status) := by
  have h1 : pendingOrderC3.filled_size ≤ pendingOrderC3.size := by
    norm_num [pendingOrderC3, openOrderC3]
  have h2 : guardedEvents pendingOrderC3 [.fill 60, .fill 40, .cancel] := by
    norm_num +decide [guardedEvents, applyFillEvent, cancelOrder,
      pendingOrderC3, openOrderC3]
  exact ⟨h1, h2, c3_order_invariant_guarded _ pendingOrderC3 h1 h2⟩

/-- Balance updates do not touch the trade list. -/
theorem updateBalance_trades (s : ExecutorState) (side : OrderSide)
    (price size : Rat) : (updateBalance s side price size).trades = s.trades := by
  cases side <;> rfl

/-- Position updates do not touch the trade list. -/
theorem updatePosition_trades (s : ExecutorState) (token_id : String)
    (side : OrderSide) (price size : Rat) :
    (updatePosition s token_id side price size).trades = s.trades := rfl

/-- A paper execution appends exactly one trade, priced at the limit
price for LIMIT orders and at the slippage-adjusted price for MARKET
orders. -/
theorem executePaperOrder_trade (s : ExecutorState) (oid tid m tok : String)
    (side : OrderSide) (price size : Rat) (ot : OrderType) :
    ∃ tr, (executePaperOrder s oid tid m tok side price size ot).2.trades
        = s.trades ++ [tr] ∧
      tr.price = (if ot = .market then
          (if side = .buy then price * (1 + s.slippage)
           else price * (1 - s.slippage)) else price) ∧
      tr.size = size := by
  cases ot with
  | limit =>
      cases side with
      | buy =>
          refine ⟨{ id := tid, order_id := oid, market_id := m, token_id := tok,
                      side := .buy, price := price, size := size, fee := 0,
                      is_paper := true }, ?_, by simp, rfl⟩
          simp [executePaperOrder, createTrade, updateBalance_trades,
            updatePosition_trades]
      | sell =>
          refine ⟨{ id := tid, order_id := oid, market_id := m, token_id := tok,
                      side := .sell, price := price, size := size, fee := 0,
                      is_paper := true }, ?_, by simp, rfl⟩
          simp [executePaperOrder, createTrade, updateBalance_trades,
            updatePosition_trades]
  | market =>
      cases side with
      | buy =>
          refine ⟨{ id := tid, order_id := oid, market_id := m, token_id := tok,
                      side := .buy, price := price * (1 + s.slippage),
                      size := size, fee := 0,
                      is_paper := true }, ?_, by simp, rfl⟩
          simp [executePaperOrder, createTrade, updateBalance_trades,
            updatePosition_trades]
      | sell =>
          refine ⟨{ id := tid, order_id := oid, market_id := m, token_id := tok,
                      side := .sell, price := price * (1 - s.slippage),
                      size := size, fee := 0,
                      is_paper := true }, ?_, by simp, rfl⟩
          simp [executePaperOrder, createTrade, updateBalance_trades,
            updatePosition_trades]

/-- **C6** (confirmed).  Every accepted paper order records a trade whose
fill price is exactly the limit price for a LIMIT order, and
`price × (1 + slippage)` for a MARKET BUY / `price × (1 − slippage)` for
a MARKET SELL. -/
theorem c6_paper_fill_price (s : ExecutorState) (oid tid m tok : String)
    (side : OrderSide) (price size : Rat) (ot : OrderType) (o : Order)
    (h : (createOrder s oid tid m tok side price size ot).1 = some o) :
    ∃ tr, (createOrder s oid tid m tok side price size ot).2.trades
        = s.trades ++ [tr] ∧
      tr.price = (if ot = .market then
          (if side = .buy then price * (1 + s.slippage)
           else price * (1 - s.slippage)) else price) ∧
      tr.size = size := by
  unfold createOrder at h ⊢
  split_ifs at h with h1 h2 h3 h4
  rw [if_neg h1, if_neg h2, if_neg h3, if_neg h4]
  exact executePaperOrder_trade s oid tid m tok side price size ot

/-- **C6** witness: the S1 BUY leg (a LIMIT order, filled at its limit
price 0.40). -/
theorem c6_paper_fill_price_witness :
    (createOrder scenarioStart "o1" "t1" "M1" "T1" .buy (2/5) 100 .limit).1
      = some buyOrderLit ∧
    ∃ tr, (createOrder scenarioStart "o1" "t1" "M1" "T1" .buy (2/5) 100
        .limit).2.trades = scenarioStart.trades ++ [tr] ∧
      tr.price = (if OrderType.limit = .market then
          (if OrderSide.buy = .buy then
            (2/5 : Rat) * (1 + scenarioStart.slippage)
           else (2/5 : Rat) * (1 - scenarioStart.slippage)) else 2/5) ∧
      tr.size = 100 := by
  have h : (createOrder scenarioStart "o1" "t1" "M1" "T1" .buy (2/5) 100
      .limit).1 = some buyOrderLit := by
    norm_num +decide [scenarioStart, createOrder, executePaperOrder,
      insufficientPosition, lookupPos, updateBalance, updatePosition,
      createTrade, posInsert, posErase, orderInsert, Position.is_flat,
      buyOrderLit]
  exact ⟨h, c6_paper_fill_price scenarioStart "o1" "t1" "M1" "T1" .buy (2/5)
    100 .limit buyOrderLit h⟩

/-- **C10** (confirmed).  Every order the paper engine returns is already
FILLED with `filled_size = size` at the moment it is returned, and
cancelling such an order returns `false` and leaves it unchanged. -/
theorem c10_paper_orders_born_filled (s : ExecutorState)
    (oid tid m tok : String) (side : OrderSide) (price size : Rat)
    (ot : OrderType) (o : Order)
    (h : (createOrder s oid tid m tok side price size ot).1 = some o) :
    o.status = .filled ∧ o.filled_size = o.size ∧
    cancelOrder o = (false, o) := by
  unfold createOrder at h
  split_ifs at h
  unfold executePaperOrder at h
  dsimp only at h
  obtain rfl := (Option.some.inj h).symm
  exact ⟨rfl, rfl, by simp [cancelOrder]⟩

/-- **C10** witness: the S1 BUY leg, returned FILLED and uncancellable. -/
theorem c10_paper_orders_born_filled_witness :
    (createOrder scenarioStart "o1" "t1" "M1" "T1" .buy (2/5) 100 .limit).1
      = some buyOrderLit ∧
    (buyOrderLit.status = .filled ∧
     buyOrderLit.filled_size = buyOrderLit.size ∧
     cancelOrder buyOrderLit = (false, buyOrderLit)) := by
  have h : (createOrder scenarioStart "o1" "t1" "M1" "T1" .buy (2/5) 100
      .limit).1 = some buyOrderLit := by
    norm_num +decide [scenarioStart, createOrder, executePaperOrder,
      insufficientPosition, lookupPos, updateBalance, updatePosition,
      createTrade, posInsert, posErase, orderInsert, Position.is_flat,
      buyOrderLit]
  exact ⟨h, c10_paper_orders_born_filled scenarioStart "o1" "t1" "M1" "T1"
    .buy (2/5) 100 .limit buyOrderLit h⟩

/-- **C9** (counterexample).  Saving a size-0 position does not delete it:
`save_position` is an INSERT OR REPLACE, so the zero row is persisted in
the table (it is only the listing query that filters it out). -/
theorem c9_zero_size_row_persisted : savePosition [] flatPosC9 ≠ [] := by
  simp [savePosition]

/-- **C9** (amended).  Saving a size-0 position stores a zero row
(INSERT OR REPLACE, not a delete), but the position nevertheless does not
appear in any subsequent listing, because `get_positions` filters
`size != 0` and the replace leaves no other row under that token id. -/
theorem c9_flat_position_not_listed (db : PositionsTable) (p : Position)
    (h : p.size = 0) :
    p.token_id ∉ (getPositions (savePosition db p)).map Position.token_id := by
  intro hmem
  obtain ⟨row, hrow, hEq⟩ := List.mem_map.mp hmem
  obtain ⟨hmem2, hsz⟩ := List.mem_filter.mp hrow
  rcases List.mem_cons.mp hmem2 with rfl | hmem3
  · rw [h] at hsz
    simp at hsz
  · have hne := (List.mem_filter.mp hmem3).2
    rw [hEq] at hne
    simp at hne

/-- **C9** witness: a flat position saved into an empty table is absent
from the listing. -/
theorem c9_flat_position_not_listed_witness :
    flatPosC9.size = 0 ∧
    flatPosC9.token_id
      ∉ (getPositions (savePosition [] flatPosC9)).map Position.token_id :=
  ⟨rfl, c9_flat_position_not_listed [] flatPosC9 rfl⟩

/-- **C7** (confirmed).  Whenever the market socket is (re)established
with a non-empty subscription set, the subscribe frame sent contains
every token id currently subscribed — the full set is re-sent and the
reconnect itself changes no subscription — for any prior history of
subscribe/unsubscribe/reconnect events. -/
theorem c7_reconnect_resends_full_set (subs0 : List String)
    (es : List WsEvent) (h : wsRunSubs subs0 es ≠ []) :
    ∃ f, wsStepFrame (wsRunSubs subs0 es) .reconnect = some f ∧
      wsRunSubs subs0 es ⊆ f.assets_ids ∧
      wsStepSubs (wsRunSubs subs0 es) .reconnect = wsRunSubs subs0 es := by
  refine ⟨{ assets_ids := wsRunSubs subs0 es, type := "MARKET",
            initial_dump := true }, ?_, fun t ht => ht, rfl⟩
  simp [wsStepFrame, sendMarketSubscription, h]

/-- **C7** witness: subscribe to TY and TN, reconnect, and observe both in
the re-sent frame. -/
theorem c7_reconnect_resends_full_set_witness :
    wsRunSubs [] wsEventsC7 ≠ [] ∧
    ∃ f, wsStepFrame (wsRunSubs [] wsEventsC7) .reconnect = some f ∧
      wsRunSubs [] wsEventsC7 ⊆ f.assets_ids ∧
      wsStepSubs (wsRunSubs [] wsEventsC7) .reconnect
        = wsRunSubs [] wsEventsC7 := by
  have h : wsRunSubs [] wsEventsC7 ≠ [] := by
    simp +decide [wsRunSubs, wsEventsC7, wsStepSubs, subsUnion]
  exact ⟨h, c7_reconnect_resends_full_set [] wsEventsC7 h⟩

/-- A well-formed `price_changes` element parses to an update that takes
the enclosing frame's market id. -/
theorem parseSinglePriceChange_wf {pc : JValue} (m : JValue)
    (h : wellFormedPC pc = true) :
    ∃ u, parseSinglePriceChange pc m = some u ∧ u.market_id = m := by
  cases pc
  case obj fields =>
    simp only [wellFormedPC, Bool.and_eq_true] at h
    obtain ⟨⟨h1, h2⟩, h3⟩ := h
    obtain ⟨p, hp⟩ := Option.isSome_iff_exists.mp h1
    obtain ⟨bb, hb⟩ := Option.isSome_iff_exists.mp h2
    obtain ⟨ba, ha⟩ := Option.isSome_iff_exists.mp h3
    refine ⟨{ market_id := m,
              token_id := (jLookup fields "asset_id").getD (.str ""),
              price := p, best_bid := bb, best_ask := ba }, ?_, rfl⟩
    simp [parseSinglePriceChange, hp, hb, ha]
  all_goals simp [wellFormedPC] at h

/-- Parsing a list of well-formed elements drops none of them and keeps
their order: the `filterMap` is a `Forall₂`-related map. -/
theorem parseAll_forall₂ (m : JValue) :
    ∀ xs : List JValue, (∀ pc ∈ xs, wellFormedPC pc = true) →
      ∃ us, xs.filterMap (fun pc => parseSinglePriceChange pc m) = us ∧
        List.Forall₂ (fun pc u => parseSinglePriceChange pc m = some u ∧
          u.market_id = m) xs us := by
  intro xs
  induction xs with
  | nil => exact fun _ => ⟨[], rfl, List.Forall₂.nil⟩
  | cons pc rest ih =>
      intro h
      obtain ⟨u, hu, hm⟩ :=
        parseSinglePriceChange_wf m (h pc (List.mem_cons_self pc rest))
      obtain ⟨us, hus, hall⟩ := ih (fun x hx => h x (List.mem_cons_of_mem pc hx))
      refine ⟨u :: us, ?_, List.Forall₂.cons ⟨hu, hm⟩ hall⟩
      simp [List.filterMap_cons, hu, hus]

/-- **C5** (confirmed).  A market frame whose `price_changes` array holds
N well-formed per-token elements decodes to exactly N `PriceChange`
events, one per element in input order (`Forall₂` pairs them up), each
parsed from its own element and carrying the market id of the enclosing
frame. -/
theorem c5_batched_price_changes (fields : List (String × JValue))
    (xs : List JValue)
    (hev : jLookup fields "event_type" = some (.str "price_change"))
    (hpc : jLookup fields "price_changes" = some (.arr xs))
    (hwf : xs.all wellFormedPC = true) :
    ∃ us, List.Forall₂ (fun pc u =>
        parseSinglePriceChange pc ((jLookup fields "market").getD (.str ""))
          = some u ∧
        u.market_id = (jLookup fields "market").getD (.str "")) xs us ∧
      handleMarketMessage (.obj fields) = us.map MarketEvent.price := by
  obtain ⟨us, hus, hall⟩ :=
    parseAll_forall₂ ((jLookup fields "market").getD (.str "")) xs
      (by simpa using List.all_eq_true.mp hwf)
  refine ⟨us, hall, ?_⟩
  have het : eventTypeStr fields = some "price_change" := by
    simp [eventTypeStr, hev]
  simp [handleMarketMessage, handleSingleMarketMessage, het,
    parsePriceUpdates, hpc, hus]

/-- **C5** witness: the two-element S3 frame decodes to two events. -/
theorem c5_batched_price_changes_witness :
    jLookup frameFieldsC5 "event_type" = some (.str "price_change") ∧
    jLookup frameFieldsC5 "price_changes" = some (.arr pcElemsC5) ∧
    pcElemsC5.all wellFormedPC = true ∧
    ∃ us, List.Forall₂ (fun pc u =>
        parseSinglePriceChange pc
            ((jLookup frameFieldsC5 "market").getD (.str "")) = some u ∧
        u.market_id = (jLookup frameFieldsC5 "market").getD (.str ""))
        pcElemsC5 us ∧
      handleMarketMessage (.obj frameFieldsC5) = us.map MarketEvent.price := by
  have h1 : jLookup frameFieldsC5 "event_type" = some (.str "price_change") := by
    simp [jLookup, frameFieldsC5]
  have h2 : jLookup frameFieldsC5 "price_changes" = some (.arr pcElemsC5) := by
    simp [jLookup, frameFieldsC5]
  have h3 : pcElemsC5.all wellFormedPC = true := by
    simp [pcElemsC5, wellFormedPC, jLookup, parseOptPrice, asFloat]
  exact ⟨h1, h2, h3, c5_batched_price_changes frameFieldsC5 pcElemsC5 h1 h2 h3⟩

/-- Dropping the non-dict elements of a list frame changes nothing: they
contribute no events. -/
theorem flatMap_filter_isObj (l : List JValue) :
    (l.filter isObj).flatMap (fun it =>
      match it with
      | .obj fields => handleSingleMarketMessage fields
      | _ => ([] : List MarketEvent))
    = l.flatMap (fun it =>
      match it with
      | .obj fields => handleSingleMarketMessage fields
      | _ => []) := by
  induction l with
  | nil => rfl
  | cons it rest ih =>
      cases it <;> simp [List.filter_cons, isObj, ih]

/-- **C8** (confirmed).  Market-frame decoding is total over the JSON
model and turns every frame into a finite event list: a frame that is
neither a dict nor a list yields zero events, non-dict elements inside a
list frame are dropped silently (the result equals that of the filtered
list), and a dict frame whose `event_type` is none of `price_change`,
`book`, `trade` yields zero events rather than an error. -/
theorem c8_decoder_total :
    (∀ sv : String, handleMarketMessage (.str sv) = []) ∧
    (∀ q : Rat, handleMarketMessage (.num q) = []) ∧
    (∀ b : Bool, handleMarketMessage (.bool b) = []) ∧
    handleMarketMessage .null = [] ∧
    (∀ items : List JValue, handleMarketMessage (.arr items)
      = handleMarketMessage (.arr (items.filter isObj))) ∧
    (∀ fields : List (String × JValue),
      eventTypeStr fields ≠ some "price_change" →
      eventTypeStr fields ≠ some "book" →
      eventTypeStr fields ≠ some "trade" →
      handleSingleMarketMessage fields = []) := by
  refine ⟨fun _ => rfl, fun _ => rfl, fun _ => rfl, rfl, ?_, ?_⟩
  · intro items
    simp only [handleMarketMessage]
    exact (flatMap_filter_isObj items).symm
  · intro fields h1 h2 h3
    simp [handleSingleMarketMessage, h1, h2, h3]

/-- **C8** witness: a `PONG` text frame, a mixed list frame, and an
unknown `event_type` all decode without error. -/
theorem c8_decoder_total_witness :
    handleMarketMessage (.str "PONG") = [] ∧
    handleMarketMessage (.arr [.num 1, .obj frameFieldsC5])
      = handleMarketMessage
          (.arr ([.num 1, .obj frameFieldsC5].filter isObj)) ∧
    (eventTypeStr unknownFieldsC8 ≠ some "price_change" ∧
     eventTypeStr unknownFieldsC8 ≠ some "book" ∧
     eventTypeStr unknownFieldsC8 ≠ some "trade" ∧
     handleSingleMarketMessage unknownFieldsC8 = []) := by
  have h1 : eventTypeStr unknownFieldsC8 ≠ some "price_change" := by
    simp [eventTypeStr, unknownFieldsC8, jLookup]
  have h2 : eventTypeStr unknownFieldsC8 ≠ some "book" := by
    simp [eventTypeStr, unknownFieldsC8, jLookup]
  have h3 : eventTypeStr unknownFieldsC8 ≠ some "trade" := by
    simp [eventTypeStr, unknownFieldsC8, jLookup]
  exact ⟨c8_decoder_total.1 "PONG",
    c8_decoder_total.2.2.2.2.1 [.num 1, .obj frameFieldsC5],
    h1, h2, h3, c8_decoder_total.2.2.2.2.2 unknownFieldsC8 h1 h2 h3⟩

end Polytrader
